import Mathlib

/-
Verification of the GoRpc client/server core.

The Go source is shallowly embedded: the client's mutable state (sequence
counter, pending map, closed/shutdown flags) becomes an explicit state
record, the pending map `map[uint64]*Call` becomes an association list with
Go-map lookup/delete semantics, and the concurrent interactions
(user send/Close calls interleaved with the reader goroutine's loop
iterations) become a trace of atomic operations, each operation being one
lock-protected critical section of the source.  `call.done()` (a send on the
call's Done channel) is recorded by appending a completion record to `dones`.
-/

namespace GoRpc

/- Errors a Call can be completed with.  `remote msg` models
`fmt.Errorf(h.Error)`, `bodyDecode` models `errors.New("reading body " ...)`,
`shutdownErr` models `ErrShutdown`, `writeErr` a failed `codec.Write`, and
`connErr` the read error passed to `terminateCalls`. -/
inductive CErr where
  | remote (msg : String)
  | bodyDecode
  | shutdownErr
  | writeErr
  | connErr
deriving DecidableEq

/- One `call.done()` signal: which call (identified by a caller-chosen id,
standing for the Call object's identity), the call's Error field, and the
decoded Reply (if the body was decoded into it). -/
structure DoneRec where
  cid : Nat
  err : Option CErr
  reply : Option Nat
deriving DecidableEq

/- One response frame as the reader loop observes it: whether `ReadHeader`
succeeds, the header's Seq and Error fields, and the body read outcome
(`some v` = the body decodes to `v`, `none` = the body read fails). -/
structure Frame where
  hdrOk : Bool
  seq : Nat
  herr : String
  body : Option Nat
deriving DecidableEq

/- The Client record of client.go: seq counter, pending map (as an
association list keyed by seq, holding call ids), closed/shutdown flags.
`readerDone` records that the `receive` loop has exited, `dones` the
history of `call.done()` signals, `writes` the seqs for which
`codec.Write` was invoked. -/
structure ClientState where
  seq : Nat
  pending : List (Nat × Nat)
  closed : Bool
  shutdown : Bool
  readerDone : Bool
  dones : List DoneRec
  writes : List Nat
deriving DecidableEq

/- Go-map combined lookup+delete on the association list: returns the value
stored under key `s` (if any) and the list with that single entry removed. -/
def extract (s : Nat) : List (Nat × Nat) → Option Nat × List (Nat × Nat)
  | [] => (none, [])
  | e :: rest =>
    if e.1 == s then (some e.2, rest)
    else
      let r := extract s rest
      (r.1, e :: r.2)

/- client.registerCall: fail with ErrShutdown if closed or shutdown,
otherwise assign the current seq to the call, insert it into pending,
and increment the counter. -/
def registerCall (st : ClientState) (cid : Nat) : ClientState × Except CErr Nat :=
  if st.closed || st.shutdown then (st, Except.error CErr.shutdownErr)
  else
    ({ st with pending := (st.seq, cid) :: st.pending, seq := st.seq + 1 },
     Except.ok st.seq)

/- client.removeCall: read pending[seq], delete the entry, return the call. -/
def removeCall (st : ClientState) (s : Nat) : ClientState × Option Nat :=
  let r := extract s st.pending
  ({ st with pending := r.2 }, r.1)

/- client.terminateCalls: set shutdown and signal every pending call with
the given error (the pending map itself is not cleared by the source). -/
def terminateCalls (st : ClientState) (e : CErr) : ClientState :=
  { st with shutdown := true,
            dones := st.dones ++
              st.pending.map (fun pr => { cid := pr.2, err := some e, reply := none }) }

/- Where the body of a frame was read to. -/
inductive BodyDest where
  | skip
  | discard
  | intoReply (cid : Nat)
deriving DecidableEq

/- Effect of one reader-loop iteration: whether the loop exits (err ≠ nil)
and where ReadBody read the body to. -/
structure RecvEff where
  exit : Bool
  dest : BodyDest
deriving DecidableEq

/- One iteration of client.receive's loop body on one frame. -/
def recvStep (st : ClientState) (f : Frame) : ClientState × RecvEff :=
  if f.hdrOk then
    let r := removeCall st f.seq
    match r.2 with
    | none =>
      (r.1, { exit := f.body.isNone, dest := BodyDest.discard })
    | some cid =>
      if f.herr == "" then
        match f.body with
        | some v =>
          ({ r.1 with dones := r.1.dones ++ [{ cid := cid, err := none, reply := some v }] },
           { exit := false, dest := BodyDest.intoReply cid })
        | none =>
          ({ r.1 with dones := r.1.dones ++ [{ cid := cid, err := some CErr.bodyDecode, reply := none }] },
           { exit := true, dest := BodyDest.intoReply cid })
      else
        ({ r.1 with dones := r.1.dones ++ [{ cid := cid, err := some (CErr.remote f.herr), reply := none }] },
         { exit := f.body.isNone, dest := BodyDest.discard })
  else (st, { exit := true, dest := BodyDest.skip })

/- client.send: register; on failure complete the call at once (no write);
otherwise write header+args (recorded in `writes`); if the write fails,
pull the call back out of pending and complete it with the write error. -/
def send (st : ClientState) (cid : Nat) (writeOk : Bool) : ClientState :=
  match registerCall st cid with
  | (st1, Except.error e) =>
    { st1 with dones := st1.dones ++ [{ cid := cid, err := some e, reply := none }] }
  | (st1, Except.ok s) =>
    let st2 := { st1 with writes := st1.writes ++ [s] }
    if writeOk then st2
    else
      match removeCall st2 s with
      | (st3, some c) =>
        { st3 with dones := st3.dones ++ [{ cid := c, err := some CErr.writeErr, reply := none }] }
      | (st3, none) => st3

/- client.Close: error if already closed, otherwise mark closed
(and close the underlying connection). -/
def Close (st : ClientState) : ClientState × Except CErr Unit :=
  if st.closed then (st, Except.error CErr.shutdownErr)
  else ({ st with closed := true }, Except.ok ())

/- client.IsAvailable. -/
def IsAvailable (st : ClientState) : Bool :=
  !st.shutdown && !st.closed

/- One atomic operation in a client's lifetime: a user `send` (with the
write outcome of the connection), a user `Close`, or one reader-loop
iteration on one frame. -/
inductive Op where
  | send (cid : Nat) (writeOk : Bool)
  | close
  | recv (f : Frame)
deriving DecidableEq

/- Interleaved execution: a recv after the reader loop has exited does not
happen (the loop is gone); a recv whose iteration errors runs
terminateCalls and ends the loop, exactly as the tail of client.receive. -/
def step (st : ClientState) (op : Op) : ClientState :=
  match op with
  | Op.send cid w => send st cid w
  | Op.close => (Close st).1
  | Op.recv f =>
    if st.readerDone then st
    else
      let r := recvStep st f
      if r.2.exit then { terminateCalls r.1 CErr.connErr with readerDone := true }
      else r.1

def run (st : ClientState) (ops : List Op) : ClientState :=
  ops.foldl step st

/- newClientCodec's initial state: seq starts at 1, pending empty. -/
def initClient : ClientState :=
  { seq := 1, pending := [], closed := false, shutdown := false,
    readerDone := false, dones := [], writes := [] }

/- The call ids a trace attempts to send. -/
def cidsOf : List Op → List Nat
  | [] => []
  | Op.send cid _ :: rest => cid :: cidsOf rest
  | Op.close :: rest => cidsOf rest
  | Op.recv _ :: rest => cidsOf rest

/- How many times call `cid` has been signaled on its Done channel. -/
def sigCount (st : ClientState) (cid : Nat) : Nat :=
  st.dones.countP (fun d => d.cid == cid)

/- How many pending-table entries hold call `cid`. -/
def pendCount (st : ClientState) (cid : Nat) : Nat :=
  st.pending.countP (fun e => e.2 == cid)

/-
Server side (src/unnamed/part_002 and src/service.go), shallowly embedded.
Go's reflection data is carried as plain records: a `GoType` is a type's
name and package path, a `GoMethod` is what `typ.Method(i)` reports about
one method of the registered instance.
-/

structure GoType where
  name : String
  pkgPath : String
deriving DecidableEq

/- ast.IsExported: the first character is upper-case. -/
def isExported (s : String) : Bool :=
  match s.data with
  | [] => false
  | c :: _ => c.isUpper

def isExportedOrBuiltinType (t : GoType) : Bool :=
  isExported t.name || t.pkgPath == ""

/- What reflection reports about one method: parameter count (receiver
included), result count, whether the sole result is the error type, and
the two parameter types In(1) and In(2) (meaningful when numIn = 3;
the source only reads them after the arity check). -/
structure GoMethod where
  name : String
  numIn : Nat
  numOut : Nat
  outIsError : Bool
  argType : GoType
  replyType : GoType
deriving DecidableEq

/- The filter applied by service.registerMethods, in source order:
three ins and one out, the out is error, both parameter types exported
or builtin. -/
def methodOk (m : GoMethod) : Bool :=
  m.numIn == 3 && m.numOut == 1 && m.outIsError &&
    isExportedOrBuiltinType m.argType && isExportedOrBuiltinType m.replyType

/- The methodType record stored in service.method. -/
structure methodType where
  mname : String
  argType : GoType
  replyType : GoType
deriving DecidableEq

def mkMethodType (m : GoMethod) : methodType :=
  { mname := m.name, argType := m.argType, replyType := m.replyType }

/- service.registerMethods: keep exactly the methods passing methodOk. -/
def registerMethods : List GoMethod → List (String × methodType)
  | [] => []
  | m :: rest =>
    if methodOk m then (m.name, mkMethodType m) :: registerMethods rest
    else registerMethods rest

/- Go map indexing on the method map. -/
def methodLookup : List (String × methodType) → String → Option methodType
  | [], _ => none
  | e :: rest, n => if e.1 == n then some e.2 else methodLookup rest n

/- The service record: derived name (the instance's type name) and its
method map. -/
structure GoService where
  sname : String
  method : List (String × methodType)
deriving DecidableEq

/- newService minus the log.Fatalf liveness check on the name. -/
def newService (typeName : String) (ms : List GoMethod) : GoService :=
  { sname := typeName, method := registerMethods ms }

/- sync.Map.Load on the service registry. -/
def serviceLookup : List (String × GoService) → String → Option GoService
  | [], _ => none
  | e :: rest, n => if e.1 == n then some e.2 else serviceLookup rest n

/- Server.Register: serviceMap.LoadOrStore — keep the stored service and
fail on a duplicate name, otherwise add the new one. -/
def Register (reg : List (String × GoService)) (s : GoService) :
    List (String × GoService) × Option String :=
  match serviceLookup reg s.sname with
  | some _ => (reg, some ("rpc: service already defined: " ++ s.sname))
  | none => (reg ++ [(s.sname, s)], none)

/- strings.LastIndex(s, "."): index of the last '.', if any. -/
def lastIndexDot : List Char → Option Nat
  | [] => none
  | c :: rest =>
    match lastIndexDot rest with
    | some i => some (i + 1)
    | none => if c == '.' then some 0 else none

/- Server.findService: split on the last dot, look the service up, then
the method, with the three distinct error messages of the source. -/
def findService (reg : List (String × GoService)) (serverMethod : String) :
    Except String (GoService × methodType) :=
  match lastIndexDot serverMethod.data with
  | none => Except.error ("rpc server: service/method request ill-formed: " ++ serverMethod)
  | some dot =>
    let serviceName := String.mk (serverMethod.data.take dot)
    let methodName := String.mk (serverMethod.data.drop (dot + 1))
    match serviceLookup reg serviceName with
    | none => Except.error ("rpc server: can't find service: " ++ serviceName)
    | some svc =>
      match methodLookup svc.method methodName with
      | none => Except.error ("rpc server: can't find method: " ++ methodName)
      | some mt => Except.ok (svc, mt)

/- One wire request as the per-connection loop observes it: whether the
header decodes, its ServiceMethod and Seq fields, whether the argument
body decodes (`some msg` = the decode error's message), and — for
requests that reach dispatch — the outcome of invoking the registered
method (application behavior, external input to the server). -/
deriving instance DecidableEq for Except

structure ReqEvent where
  hdrOk : Bool
  serviceMethod : String
  seq : Nat
  bodyErr : Option String
  callResult : Except String Nat
deriving DecidableEq

/- A response body: the sentinel invalidRequest, or a reply value. -/
inductive RespBody where
  | invalid
  | reply (v : Nat)
deriving DecidableEq

/- One response frame written by sendResponse: the echoed header fields
(ServiceMethod, Seq, Error) and the body. -/
structure Resp where
  serviceMethod : String
  seq : Nat
  herr : String
  body : RespBody
deriving DecidableEq

/- Server.serveCodec + readRequest + handleRequest over a stream of
request events: returns the responses written on the connection and the
number of codec frame reads attempted (one per loop iteration).
A header decode failure breaks the loop; a lookup or body-decode failure
stamps the error into the request's header, answers with the invalid
sentinel, and continues; a dispatched request answers with the method's
reply or its error and the sentinel. -/
def serveCodec (reg : List (String × GoService)) : List ReqEvent → List Resp × Nat
  | [] => ([], 0)
  | e :: rest =>
    if e.hdrOk then
      match findService reg e.serviceMethod with
      | Except.error msg =>
        let r := serveCodec reg rest
        ({ serviceMethod := e.serviceMethod, seq := e.seq, herr := msg,
           body := RespBody.invalid } :: r.1, r.2 + 1)
      | Except.ok _ =>
        match e.bodyErr with
        | some msg =>
          let r := serveCodec reg rest
          ({ serviceMethod := e.serviceMethod, seq := e.seq, herr := msg,
             body := RespBody.invalid } :: r.1, r.2 + 1)
        | none =>
          let r := serveCodec reg rest
          match e.callResult with
          | Except.error msg =>
            ({ serviceMethod := e.serviceMethod, seq := e.seq, herr := msg,
               body := RespBody.invalid } :: r.1, r.2 + 1)
          | Except.ok v =>
            ({ serviceMethod := e.serviceMethod, seq := e.seq, herr := "",
               body := RespBody.reply v } :: r.1, r.2 + 1)
    else ([], 1)

/- codec.Type values and the codec constructor registry after codec's
init(): only the gob codec is registered. -/
def GobType : String := "application/gob"

def JsonType : String := "application/json"

def NewCodeFuncMap : List String := [GobType]

/- The Option negotiation message of server.go (named OptionMsg here
because `Option` would shadow the Lean Option used throughout). -/
structure OptionMsg where
  magicNumber : Int
  codecType : String
deriving DecidableEq

def MagicNumber : Int := 0x3bef5c

def DefaultOption : OptionMsg :=
  { magicNumber := MagicNumber, codecType := GobType }

/- Server.ServeConn: decode one Option (none = JSON decode failure),
check the magic number, check the codec registry, then run serveCodec.
Any failure closes the connection having read no codec frame and
written nothing. -/
def ServeConn (reg : List (String × GoService)) (opt : Option OptionMsg)
    (reqs : List ReqEvent) : List Resp × Nat :=
  match opt with
  | none => ([], 0)
  | some o =>
    if o.magicNumber == MagicNumber then
      if NewCodeFuncMap.contains o.codecType then serveCodec reg reqs
      else ([], 0)
    else ([], 0)

/- client.parseOptions on the variadic list (entries may be nil). -/
def parseOptions (options : List (Option OptionMsg)) : Except String OptionMsg :=
  match options with
  | [] => Except.ok DefaultOption
  | o0 :: rest =>
    match o0 with
    | none => Except.ok DefaultOption
    | some opt =>
      if rest.length == 0 then
        Except.ok { magicNumber := DefaultOption.magicNumber,
                    codecType := if opt.codecType == "" then DefaultOption.codecType
                                 else opt.codecType }
      else Except.error "number of options is more than 1"

/- Dial up to the net.Dial call: the Bool records whether net.Dial was
reached (parseOptions failing returns first), and the Except carries the
option handed to NewClient. -/
def Dial (options : List (Option OptionMsg)) : Bool × Except String OptionMsg :=
  match parseOptions options with
  | Except.error e => (false, Except.error e)
  | Except.ok opt => (true, Except.ok opt)

/-
Invariants of the client state machine.
-/

/- Well-formedness of reachable client states: every pending key is below
the counter, and shutdown is set exactly when the reader loop has exited. -/
structure WFc (st : ClientState) : Prop where
  keysLt : ∀ e ∈ st.pending, e.1 < st.seq
  shutIff : st.shutdown = st.readerDone

/- A registered call is accounted for exactly once: while the reader loop
runs, it is either pending or already signaled; after the loop exits it
has been signaled exactly once. -/
def Balanced (st : ClientState) (cid : Nat) : Prop :=
  if st.readerDone then sigCount st cid = 1
  else sigCount st cid + pendCount st cid = 1

/- A call id the client has never seen. -/
def FreshCid (st : ClientState) (cid : Nat) : Prop :=
  sigCount st cid = 0 ∧ pendCount st cid = 0

theorem extract_fst_none (s : Nat) (p : List (Nat × Nat))
    (h : (extract s p).1 = none) : (extract s p).2 = p := by
  induction p with
  | nil => simp [extract]
  | cons e rest ih =>
    by_cases hc : (e.1 == s) = true
    · simp [extract, hc] at h
    · simp only [extract, hc, Bool.false_eq_true, if_false] at h ⊢
      simp [ih h]

theorem extract_fst_some_countP (s c cid : Nat) (p : List (Nat × Nat))
    (h : (extract s p).1 = some c) :
    (extract s p).2.countP (fun e => e.2 == cid) + (if (c == cid) = true then 1 else 0)
      = p.countP (fun e => e.2 == cid) := by
  induction p with
  | nil => simp [extract] at h
  | cons e rest ih =>
    by_cases hc : (e.1 == s) = true
    · simp only [extract, hc, if_true] at h ⊢
      cases h
      rw [List.countP_cons]
    · simp only [extract, hc, Bool.false_eq_true, if_false] at h ⊢
      rw [List.countP_cons, List.countP_cons, ← ih h]
      omega

theorem extract_snd_sublist (s : Nat) (p : List (Nat × Nat)) :
    (extract s p).2.Sublist p := by
  induction p with
  | nil => simp [extract]
  | cons e rest ih =>
    by_cases hc : (e.1 == s) = true
    · simp only [extract, hc, if_true]
      exact List.sublist_cons_self e rest
    · simp only [extract, hc, Bool.false_eq_true, if_false]
      exact ih.cons₂ e

theorem extract_snd_mem (s : Nat) (p : List (Nat × Nat)) (x : Nat × Nat)
    (h : x ∈ (extract s p).2) : x ∈ p :=
  (extract_snd_sublist s p).subset h

/- Equation lemmas for each critical section. -/

theorem send_shutdown_eq (st : ClientState) (cid : Nat) (w : Bool)
    (h : (st.closed || st.shutdown) = true) :
    send st cid w =
      { st with dones := st.dones ++ [{ cid := cid, err := some CErr.shutdownErr, reply := none }] } := by
  simp [send, registerCall, h]

theorem send_ok_eq (st : ClientState) (cid : Nat)
    (h : (st.closed || st.shutdown) = false) :
    send st cid true =
      { st with pending := (st.seq, cid) :: st.pending, seq := st.seq + 1,
                writes := st.writes ++ [st.seq] } := by
  simp [send, registerCall, h]

theorem send_fail_eq (st : ClientState) (cid : Nat)
    (h : (st.closed || st.shutdown) = false) :
    send st cid false =
      { st with seq := st.seq + 1, writes := st.writes ++ [st.seq],
                dones := st.dones ++ [{ cid := cid, err := some CErr.writeErr, reply := none }] } := by
  simp [send, registerCall, removeCall, extract, h]

theorem close_fst (st : ClientState) : (Close st).1 = { st with closed := true } := by
  by_cases h : st.closed = true
  · cases st
    simp_all [Close]
  · simp [Close, h]

theorem recvStep_hdrFail (st : ClientState) (f : Frame) (h : f.hdrOk = false) :
    recvStep st f = (st, { exit := true, dest := BodyDest.skip }) := by
  simp [recvStep, h]

theorem recvStep_noCall (st : ClientState) (f : Frame) (h : f.hdrOk = true)
    (hx : (extract f.seq st.pending).1 = none) :
    recvStep st f = ({ st with pending := (extract f.seq st.pending).2 },
                     { exit := f.body.isNone, dest := BodyDest.discard }) := by
  simp [recvStep, removeCall, h, hx]

theorem recvStep_remote (st : ClientState) (f : Frame) (c : Nat) (h : f.hdrOk = true)
    (hx : (extract f.seq st.pending).1 = some c) (he : (f.herr == "") = false) :
    recvStep st f =
      ({ st with pending := (extract f.seq st.pending).2,
                 dones := st.dones ++ [{ cid := c, err := some (CErr.remote f.herr), reply := none }] },
       { exit := f.body.isNone, dest := BodyDest.discard }) := by
  simp [recvStep, removeCall, h, hx, he]

theorem recvStep_reply (st : ClientState) (f : Frame) (c v : Nat) (h : f.hdrOk = true)
    (hx : (extract f.seq st.pending).1 = some c) (he : (f.herr == "") = true)
    (hb : f.body = some v) :
    recvStep st f =
      ({ st with pending := (extract f.seq st.pending).2,
                 dones := st.dones ++ [{ cid := c, err := none, reply := some v }] },
       { exit := false, dest := BodyDest.intoReply c }) := by
  simp [recvStep, removeCall, h, hx, he, hb]

theorem recvStep_replyFail (st : ClientState) (f : Frame) (c : Nat) (h : f.hdrOk = true)
    (hx : (extract f.seq st.pending).1 = some c) (he : (f.herr == "") = true)
    (hb : f.body = none) :
    recvStep st f =
      ({ st with pending := (extract f.seq st.pending).2,
                 dones := st.dones ++ [{ cid := c, err := some CErr.bodyDecode, reply := none }] },
       { exit := true, dest := BodyDest.intoReply c }) := by
  simp [recvStep, removeCall, h, hx, he, hb]

theorem terminate_sig (st : ClientState) (e : CErr) (cid : Nat) :
    sigCount (terminateCalls st e) cid = sigCount st cid + pendCount st cid := by
  simp [terminateCalls, sigCount, pendCount, List.countP_append, List.countP_map]
  rfl

theorem terminate_pend (st : ClientState) (e : CErr) (cid : Nat) :
    pendCount (terminateCalls st e) cid = pendCount st cid := rfl

/- Counting consequences of removing the matched call and appending one
completion record for it. -/
theorem matched_counts (st : ClientState) (P : List (Nat × Nat)) (c cid : Nat) (d : DoneRec)
    (hd : d.cid = c)
    (hcnt : P.countP (fun e => e.2 == cid) + (if (c == cid) = true then 1 else 0)
              = st.pending.countP (fun e => e.2 == cid)) :
    sigCount { st with pending := P, dones := st.dones ++ [d] } cid
        + pendCount { st with pending := P, dones := st.dones ++ [d] } cid
      = sigCount st cid + pendCount st cid ∧
    pendCount { st with pending := P, dones := st.dones ++ [d] } cid ≤ pendCount st cid := by
  cases hcc : c == cid
  all_goals simp [sigCount, pendCount, List.countP_append, List.countP_cons, hd, hcc] at hcnt ⊢
  all_goals (try constructor) <;> omega

/- One reader-loop iteration preserves the per-call accounting: the number
of signals plus pending entries for a call is unchanged, pending entries
only disappear, and seq and the flags are untouched. -/
theorem recvStep_core (st : ClientState) (f : Frame) (cid : Nat) :
    sigCount (recvStep st f).1 cid + pendCount (recvStep st f).1 cid
        = sigCount st cid + pendCount st cid ∧
    pendCount (recvStep st f).1 cid ≤ pendCount st cid ∧
    (recvStep st f).1.seq = st.seq ∧
    (recvStep st f).1.closed = st.closed ∧
    (recvStep st f).1.shutdown = st.shutdown ∧
    (recvStep st f).1.readerDone = st.readerDone ∧
    (∀ x ∈ (recvStep st f).1.pending, x ∈ st.pending) := by
  cases hh : f.hdrOk
  case false =>
    rw [recvStep_hdrFail st f hh]
    simp
  case true =>
    cases hx : (extract f.seq st.pending).1
    case none =>
      rw [recvStep_noCall st f hh hx, extract_fst_none _ _ hx]
      simp
    case some c =>
      have hcnt := extract_fst_some_countP f.seq c cid st.pending hx
      have hsub : ∀ x ∈ (extract f.seq st.pending).2, x ∈ st.pending :=
        fun x hm => extract_snd_mem f.seq st.pending x hm
      cases he : (f.herr == "")
      case false =>
        rw [recvStep_remote st f c hh hx he]
        have hm := matched_counts st (extract f.seq st.pending).2 c cid
          { cid := c, err := some (CErr.remote f.herr), reply := none } rfl hcnt
        exact ⟨hm.1, hm.2, rfl, rfl, rfl, rfl, hsub⟩
      case true =>
        cases hb : f.body
        case none =>
          rw [recvStep_replyFail st f c hh hx he hb]
          have hm := matched_counts st (extract f.seq st.pending).2 c cid
            { cid := c, err := some CErr.bodyDecode, reply := none } rfl hcnt
          exact ⟨hm.1, hm.2, rfl, rfl, rfl, rfl, hsub⟩
        case some v =>
          rw [recvStep_reply st f c v hh hx he hb]
          have hm := matched_counts st (extract f.seq st.pending).2 c cid
            { cid := c, err := none, reply := some v } rfl hcnt
          exact ⟨hm.1, hm.2, rfl, rfl, rfl, rfl, hsub⟩

theorem wf_init : WFc initClient := by
  constructor
  · intro e he
    simp [initClient] at he
  · rfl

theorem wf_step (st : ClientState) (op : Op) (h : WFc st) : WFc (step st op) := by
  cases op with
  | send cid w =>
    by_cases hcs : (st.closed || st.shutdown) = true
    · simp only [step]
      rw [send_shutdown_eq st cid w hcs]
      exact ⟨h.keysLt, h.shutIff⟩
    · rw [Bool.not_eq_true] at hcs
      cases w
      · simp only [step]
        rw [send_fail_eq st cid hcs]
        refine ⟨fun e he => Nat.lt_succ_of_lt (h.keysLt e he), h.shutIff⟩
      · simp only [step]
        rw [send_ok_eq st cid hcs]
        refine ⟨fun e he => ?_, h.shutIff⟩
        rcases List.mem_cons.mp he with rfl | hm
        · exact Nat.lt_succ_self _
        · exact Nat.lt_succ_of_lt (h.keysLt e hm)
  | close =>
    simp only [step]
    rw [close_fst]
    exact ⟨h.keysLt, h.shutIff⟩
  | recv f =>
    by_cases hrd : st.readerDone = true
    · simp only [step, hrd, if_true]
      exact h
    · have hrd' : st.readerDone = false := by simpa using hrd
      simp only [step, hrd', Bool.false_eq_true, if_false]
      obtain ⟨-, -, hseq, -, -, -, hpend⟩ := recvStep_core st f 0
      by_cases hex : (recvStep st f).2.exit = true
      · simp only [hex, if_true]
        refine ⟨fun e he => ?_, rfl⟩
        simp only [terminateCalls] at he ⊢
        rw [hseq]
        exact h.keysLt e (hpend e he)
      · simp only [hex, Bool.false_eq_true, if_false]
        refine ⟨fun e he => ?_, ?_⟩
        · rw [hseq]
          exact h.keysLt e (hpend e he)
        · obtain ⟨-, -, -, -, hsh, hrd2, -⟩ := recvStep_core st f 0
          rw [hsh, hrd2]
          exact h.shutIff

/- An operation that is not a send of call `cid` neither signals `cid`
nor makes it pending, as long as `cid` has no pending entry. -/
theorem step_stable (st : ClientState) (op : Op) (cid : Nat)
    (hp : pendCount st cid = 0) (hop : ∀ w, op ≠ Op.send cid w) :
    sigCount (step st op) cid = sigCount st cid ∧ pendCount (step st op) cid = 0 := by
  cases op with
  | send cid' w =>
    have hne : (cid' == cid) = false := by
      have : cid' ≠ cid := fun h => hop w (by rw [h])
      simpa using this
    by_cases hcs : (st.closed || st.shutdown) = true
    · simp only [step]
      rw [send_shutdown_eq st cid' w hcs]
      constructor
      · simp [sigCount, List.countP_append, List.countP_cons, hne]
      · exact hp
    · rw [Bool.not_eq_true] at hcs
      cases w
      · simp only [step]
        rw [send_fail_eq st cid' hcs]
        constructor
        · simp [sigCount, List.countP_append, List.countP_cons, hne]
        · exact hp
      · simp only [step]
        rw [send_ok_eq st cid' hcs]
        constructor
        · rfl
        · simp [pendCount, List.countP_cons, hne] at hp ⊢
          exact hp
  | close =>
    simp only [step]
    rw [close_fst]
    exact ⟨rfl, hp⟩
  | recv f =>
    by_cases hrd : st.readerDone = true
    · have hid : step st (Op.recv f) = st := by simp [step, hrd]
      rw [hid]
      exact ⟨rfl, hp⟩
    · have hrd' : st.readerDone = false := by simpa using hrd
      simp only [step, hrd', Bool.false_eq_true, if_false]
      obtain ⟨hsum, hle, -, -, -, -, -⟩ := recvStep_core st f cid
      have hp1 : pendCount (recvStep st f).1 cid = 0 := by omega
      have hs1 : sigCount (recvStep st f).1 cid = sigCount st cid := by omega
      by_cases hex : (recvStep st f).2.exit = true
      · simp only [hex, if_true]
        have h2 : sigCount { terminateCalls (recvStep st f).1 CErr.connErr with readerDone := true } cid
            = sigCount (terminateCalls (recvStep st f).1 CErr.connErr) cid := rfl
        have h3 : pendCount { terminateCalls (recvStep st f).1 CErr.connErr with readerDone := true } cid
            = pendCount (terminateCalls (recvStep st f).1 CErr.connErr) cid := rfl
        rw [h2, h3, terminate_sig, terminate_pend, hp1, hs1]
        exact ⟨rfl, rfl⟩
      · simp only [hex, Bool.false_eq_true, if_false]
        exact ⟨hs1, hp1⟩

/- An operation that is not a send of call `cid` preserves the
exactly-once accounting of `cid`. -/
theorem step_balanced (st : ClientState) (op : Op) (cid : Nat)
    (hb : Balanced st cid) (hop : ∀ w, op ≠ Op.send cid w) :
    Balanced (step st op) cid := by
  cases op with
  | send cid' w =>
    have hne : (cid' == cid) = false := by
      have : cid' ≠ cid := fun h => hop w (by rw [h])
      simpa using this
    by_cases hcs : (st.closed || st.shutdown) = true
    · simp only [step]
      rw [send_shutdown_eq st cid' w hcs]
      cases hrd : st.readerDone
      all_goals simp [Balanced, hrd, sigCount, pendCount, List.countP_append,
        List.countP_cons, hne] at hb ⊢
      all_goals omega
    · rw [Bool.not_eq_true] at hcs
      cases w
      · simp only [step]
        rw [send_fail_eq st cid' hcs]
        cases hrd : st.readerDone
        all_goals simp [Balanced, hrd, sigCount, pendCount, List.countP_append,
          List.countP_cons, hne] at hb ⊢
        all_goals omega
      · simp only [step]
        rw [send_ok_eq st cid' hcs]
        cases hrd : st.readerDone
        all_goals simp [Balanced, hrd, sigCount, pendCount, List.countP_append,
          List.countP_cons, hne] at hb ⊢
        all_goals omega
  | close =>
    simp only [step]
    rw [close_fst]
    cases hrd : st.readerDone
    all_goals simp [Balanced, hrd, sigCount, pendCount] at hb ⊢
    all_goals omega
  | recv f =>
    by_cases hrd : st.readerDone = true
    · simp only [step, hrd, if_true]
      exact hb
    · have hrd' : st.readerDone = false := by simpa using hrd
      simp only [step, hrd', Bool.false_eq_true, if_false]
      obtain ⟨hsum, hle, -, -, -, hrd2, -⟩ := recvStep_core st f cid
      simp only [Balanced, hrd', Bool.false_eq_true, if_false] at hb
      by_cases hex : (recvStep st f).2.exit = true
      · simp only [hex, if_true]
        have h2 : sigCount { terminateCalls (recvStep st f).1 CErr.connErr with readerDone := true } cid
            = sigCount (terminateCalls (recvStep st f).1 CErr.connErr) cid := rfl
        simp only [Balanced, if_true]
        rw [h2, terminate_sig]
        omega
      · simp only [hex, Bool.false_eq_true, if_false]
        simp only [Balanced, hrd2, hrd', Bool.false_eq_true, if_false]
        omega

/- Sending a fresh call establishes the exactly-once accounting for it. -/
theorem step_send_fresh (st : ClientState) (cid : Nat) (w : Bool)
    (hwf : WFc st) (hf : FreshCid st cid) :
    Balanced (step st (Op.send cid w)) cid := by
  obtain ⟨hs0, hp0⟩ := hf
  simp only [sigCount] at hs0
  simp only [pendCount] at hp0
  by_cases hcs : (st.closed || st.shutdown) = true
  · simp only [step]
    rw [send_shutdown_eq st cid w hcs]
    cases hrd : st.readerDone
    · simp only [Balanced, hrd, Bool.false_eq_true, if_false, sigCount, pendCount,
        List.countP_append, List.countP_cons, List.countP_nil, beq_self_eq_true,
        eq_self_iff_true, if_true]
      omega
    · simp only [Balanced, hrd, eq_self_iff_true, if_true, sigCount, pendCount,
        List.countP_append, List.countP_cons, List.countP_nil, beq_self_eq_true]
      omega
  · rw [Bool.not_eq_true] at hcs
    have hsh : st.shutdown = false := by
      cases h1 : st.closed <;> cases h2 : st.shutdown <;> simp_all
    have hrd : st.readerDone = false := by rw [← hwf.shutIff]; exact hsh
    cases w
    · simp only [step]
      rw [send_fail_eq st cid hcs]
      simp only [Balanced, hrd, Bool.false_eq_true, if_false, sigCount, pendCount,
        List.countP_append, List.countP_cons, List.countP_nil, beq_self_eq_true,
        eq_self_iff_true, if_true]
      omega
    · simp only [step]
      rw [send_ok_eq st cid hcs]
      simp only [Balanced, hrd, Bool.false_eq_true, if_false, sigCount, pendCount,
        List.countP_append, List.countP_cons, List.countP_nil, beq_self_eq_true,
        eq_self_iff_true, if_true]
      omega

theorem step_seq_le (st : ClientState) (op : Op) : st.seq ≤ (step st op).seq := by
  cases op with
  | send cid w =>
    by_cases hcs : (st.closed || st.shutdown) = true
    · simp only [step]
      rw [send_shutdown_eq st cid w hcs]
    · rw [Bool.not_eq_true] at hcs
      cases w
      · simp only [step]
        rw [send_fail_eq st cid hcs]
        exact Nat.le_succ _
      · simp only [step]
        rw [send_ok_eq st cid hcs]
        exact Nat.le_succ _
  | close =>
    simp only [step]
    rw [close_fst]
  | recv f =>
    by_cases hrd : st.readerDone = true
    · simp [step, hrd]
    · have hrd' : st.readerDone = false := by simpa using hrd
      simp only [step, hrd', Bool.false_eq_true, if_false]
      obtain ⟨-, -, hseq, -, -, -, -⟩ := recvStep_core st f 0
      by_cases hex : (recvStep st f).2.exit = true
      · simp only [hex, if_true, terminateCalls]
        omega
      · simp only [hex, Bool.false_eq_true, if_false]
        omega

theorem run_cons (st : ClientState) (op : Op) (ops : List Op) :
    run st (op :: ops) = run (step st op) ops := rfl

theorem wf_run (ops : List Op) (st : ClientState) (h : WFc st) : WFc (run st ops) := by
  induction ops generalizing st with
  | nil => exact h
  | cons op rest ih => exact ih (step st op) (wf_step st op h)

theorem run_seq_le (ops : List Op) (st : ClientState) : st.seq ≤ (run st ops).seq := by
  induction ops generalizing st with
  | nil => exact Nat.le_refl _
  | cons op rest ih => exact Nat.le_trans (step_seq_le st op) (ih (step st op))

theorem cidsOf_cons_mem (op : Op) (rest : List Op) (cid : Nat)
    (h : cid ∈ cidsOf rest) : cid ∈ cidsOf (op :: rest) := by
  cases op <;> simp [cidsOf, h]

/- A call id never sent in a trace is never signaled by it and never
becomes pending. -/
theorem run_stable (ops : List Op) (st : ClientState) (cid : Nat)
    (hp : pendCount st cid = 0) (hcid : cid ∉ cidsOf ops) :
    sigCount (run st ops) cid = sigCount st cid ∧ pendCount (run st ops) cid = 0 := by
  induction ops generalizing st with
  | nil => exact ⟨rfl, hp⟩
  | cons op rest ih =>
    have hop : ∀ w, op ≠ Op.send cid w := by
      intro w hw
      exact hcid (by rw [hw]; simp [cidsOf])
    have hrest : cid ∉ cidsOf rest := fun hmem => hcid (cidsOf_cons_mem op rest cid hmem)
    obtain ⟨h1, h2⟩ := step_stable st op cid hp hop
    obtain ⟨h3, h4⟩ := ih (step st op) h2 hrest
    rw [run_cons]
    exact ⟨by rw [h3, h1], h4⟩

theorem run_balanced (ops : List Op) (st : ClientState) (cid : Nat)
    (hb : Balanced st cid) (hcid : cid ∉ cidsOf ops) : Balanced (run st ops) cid := by
  induction ops generalizing st with
  | nil => exact hb
  | cons op rest ih =>
    have hop : ∀ w, op ≠ Op.send cid w := by
      intro w hw
      exact hcid (by rw [hw]; simp [cidsOf])
    have hrest : cid ∉ cidsOf rest := fun hmem => hcid (cidsOf_cons_mem op rest cid hmem)
    rw [run_cons]
    exact ih (step st op) (step_balanced st op cid hb hop) hrest

/- The central accounting theorem: a call id sent once in a trace from a
well-formed fresh start is accounted for exactly once at the end. -/
theorem run_reg_balanced (ops : List Op) (st : ClientState) (cid : Nat)
    (hwf : WFc st) (hf : FreshCid st cid)
    (hnd : (cidsOf ops).Nodup) (hmem : cid ∈ cidsOf ops) :
    Balanced (run st ops) cid := by
  induction ops generalizing st with
  | nil => simp [cidsOf] at hmem
  | cons op rest ih =>
    cases op with
    | send cid' w =>
      have hnd2 : (cid' :: cidsOf rest).Nodup := by simpa [cidsOf] using hnd
      by_cases hcc : cid' = cid
      · subst hcc
        have hrest : cid' ∉ cidsOf rest := (List.nodup_cons.mp hnd2).1
        rw [run_cons]
        exact run_balanced rest _ cid' (step_send_fresh st cid' w hwf hf) hrest
      · have hmem' : cid ∈ cidsOf rest := by
          have : cid ∈ cid' :: cidsOf rest := by simpa [cidsOf] using hmem
          rcases List.mem_cons.mp this with h | h
          · exact absurd h.symm hcc
          · exact h
        have hop : ∀ w2, Op.send cid' w ≠ Op.send cid w2 := by
          intro w2 h
          injection h with h1 h2
          exact hcc h1
        have hf2 : FreshCid (step st (Op.send cid' w)) cid := by
          obtain ⟨h1, h2⟩ := step_stable st (Op.send cid' w) cid hf.2 hop
          exact ⟨by rw [h1, hf.1], h2⟩
        rw [run_cons]
        exact ih _ (wf_step st _ hwf) hf2 (List.nodup_cons.mp hnd2).2 hmem'
    | close =>
      have hop : ∀ w, Op.close ≠ Op.send cid w := fun w h => Op.noConfusion h
      have hf2 : FreshCid (step st Op.close) cid := by
        obtain ⟨h1, h2⟩ := step_stable st Op.close cid hf.2 hop
        exact ⟨by rw [h1, hf.1], h2⟩
      rw [run_cons]
      exact ih _ (wf_step st _ hwf) hf2 (by simpa [cidsOf] using hnd)
        (by simpa [cidsOf] using hmem)
    | recv f =>
      have hop : ∀ w, Op.recv f ≠ Op.send cid w := fun w h => Op.noConfusion h
      have hf2 : FreshCid (step st (Op.recv f)) cid := by
        obtain ⟨h1, h2⟩ := step_stable st (Op.recv f) cid hf.2 hop
        exact ⟨by rw [h1, hf.1], h2⟩
      rw [run_cons]
      exact ih _ (wf_step st _ hwf) hf2 (by simpa [cidsOf] using hnd)
        (by simpa [cidsOf] using hmem)

theorem pend_pos_of_mem (st : ClientState) (cid : Nat)
    (h : cid ∈ st.pending.map (fun e => e.2)) : 0 < pendCount st cid := by
  obtain ⟨e, he, hv⟩ := List.mem_map.mp h
  exact List.countP_pos_iff.mpr ⟨e, he, by simp [hv]⟩

/- A reader-loop iteration that fails to read a header flushes all pending
calls and transitions to the terminal state. -/
theorem step_recvFail (st : ClientState) (f : Frame) (hf : f.hdrOk = false)
    (hrd : st.readerDone = false) :
    step st (Op.recv f) = { terminateCalls st CErr.connErr with readerDone := true } := by
  simp [step, hrd, recvStep_hdrFail st f hf]

/-- Claim C1: every Call registered into the client's pending table is
signaled on its Done channel exactly once over the client's lifetime —
while the reader loop is alive a registered call is either still pending
or signaled exactly once (success, remote error, or transport error), and
once the reader loop has exited it has been signaled exactly once — never
twice, never left unaccounted. -/
theorem c1_registered_call_signaled_exactly_once (ops : List Op)
    (hnd : (cidsOf ops).Nodup) (cid : Nat) (hmem : cid ∈ cidsOf ops) :
    ((run initClient ops).readerDone = false →
        sigCount (run initClient ops) cid + pendCount (run initClient ops) cid = 1) ∧
    ((run initClient ops).readerDone = true →
        sigCount (run initClient ops) cid = 1) := by
  have hb := run_reg_balanced ops initClient cid wf_init ⟨rfl, rfl⟩ hnd hmem
  constructor
  · intro h
    simpa [Balanced, h] using hb
  · intro h
    simpa [Balanced, h] using hb

theorem c1_witness :
    (cidsOf [Op.send 0 true, Op.recv { hdrOk := true, seq := 1, herr := "", body := some 7 }]).Nodup ∧
    0 ∈ cidsOf [Op.send 0 true, Op.recv { hdrOk := true, seq := 1, herr := "", body := some 7 }] ∧
    (((run initClient [Op.send 0 true, Op.recv { hdrOk := true, seq := 1, herr := "", body := some 7 }]).readerDone = false →
        sigCount (run initClient [Op.send 0 true, Op.recv { hdrOk := true, seq := 1, herr := "", body := some 7 }]) 0
          + pendCount (run initClient [Op.send 0 true, Op.recv { hdrOk := true, seq := 1, herr := "", body := some 7 }]) 0 = 1) ∧
     ((run initClient [Op.send 0 true, Op.recv { hdrOk := true, seq := 1, herr := "", body := some 7 }]).readerDone = true →
        sigCount (run initClient [Op.send 0 true, Op.recv { hdrOk := true, seq := 1, herr := "", body := some 7 }]) 0 = 1)) :=
  ⟨by decide, by decide,
   c1_registered_call_signaled_exactly_once _ (by decide) 0 (by decide)⟩

/-- Claim C2: the reader loop's case analysis on one successfully-read
header: no matching pending call — the body is still read and discarded
and nothing is signaled; a non-empty header error — the body is
discarded, the call's error is set to that message and the call is
completed; otherwise the body is decoded into the call's reply (a decode
failure recorded as the call's error) and the call is completed either
way. -/
theorem c2_receive_case_analysis (st : ClientState) (f : Frame) (hh : f.hdrOk = true) :
    ((extract f.seq st.pending).1 = none →
      recvStep st f = (st, { exit := f.body.isNone, dest := BodyDest.discard })) ∧
    (∀ c, (extract f.seq st.pending).1 = some c → (f.herr == "") = false →
      recvStep st f =
        ({ st with pending := (extract f.seq st.pending).2,
                   dones := st.dones ++ [{ cid := c, err := some (CErr.remote f.herr), reply := none }] },
         { exit := f.body.isNone, dest := BodyDest.discard })) ∧
    (∀ c v, (extract f.seq st.pending).1 = some c → (f.herr == "") = true → f.body = some v →
      recvStep st f =
        ({ st with pending := (extract f.seq st.pending).2,
                   dones := st.dones ++ [{ cid := c, err := none, reply := some v }] },
         { exit := false, dest := BodyDest.intoReply c })) ∧
    (∀ c, (extract f.seq st.pending).1 = some c → (f.herr == "") = true → f.body = none →
      recvStep st f =
        ({ st with pending := (extract f.seq st.pending).2,
                   dones := st.dones ++ [{ cid := c, err := some CErr.bodyDecode, reply := none }] },
         { exit := true, dest := BodyDest.intoReply c })) := by
  refine ⟨?_, ?_, ?_, ?_⟩
  · intro hx
    rw [recvStep_noCall st f hh hx, extract_fst_none _ _ hx]
  · intro c hx he
    exact recvStep_remote st f c hh hx he
  · intro c v hx he hb
    exact recvStep_reply st f c v hh hx he hb
  · intro c hx he hb
    exact recvStep_replyFail st f c hh hx he hb

/- Concrete inputs used by the C2 witness. -/
def wSt : ClientState :=
  { seq := 2, pending := [(1, 0)], closed := false, shutdown := false,
    readerDone := false, dones := [], writes := [1] }

def wFr : Frame := { hdrOk := true, seq := 1, herr := "", body := some 9 }

theorem c2_witness :
    wFr.hdrOk = true ∧
    (((extract wFr.seq wSt.pending).1 = none →
      recvStep wSt wFr = (wSt, { exit := wFr.body.isNone, dest := BodyDest.discard })) ∧
    (∀ c, (extract wFr.seq wSt.pending).1 = some c → (wFr.herr == "") = false →
      recvStep wSt wFr =
        ({ wSt with pending := (extract wFr.seq wSt.pending).2,
                    dones := wSt.dones ++ [{ cid := c, err := some (CErr.remote wFr.herr), reply := none }] },
         { exit := wFr.body.isNone, dest := BodyDest.discard })) ∧
    (∀ c v, (extract wFr.seq wSt.pending).1 = some c → (wFr.herr == "") = true → wFr.body = some v →
      recvStep wSt wFr =
        ({ wSt with pending := (extract wFr.seq wSt.pending).2,
                    dones := wSt.dones ++ [{ cid := c, err := none, reply := some v }] },
         { exit := false, dest := BodyDest.intoReply c })) ∧
    (∀ c, (extract wFr.seq wSt.pending).1 = some c → (wFr.herr == "") = true → wFr.body = none →
      recvStep wSt wFr =
        ({ wSt with pending := (extract wFr.seq wSt.pending).2,
                    dones := wSt.dones ++ [{ cid := c, err := some CErr.bodyDecode, reply := none }] },
         { exit := true, dest := BodyDest.intoReply c }))) :=
  ⟨rfl, c2_receive_case_analysis wSt wFr rfl⟩

/-- Claim C3: with any number of pending calls, both closing the client
and the reader loop observing any read error (header read failure,
including clean EOF) lead to the terminal state: the client is marked
shutdown, the reader loop is gone, every pending call is completed with
the connection-level error, and each such call — previously never
signaled — is signaled exactly once. -/
theorem c3_terminal_state_flushes_pending (ops : List Op) (hnd : (cidsOf ops).Nodup)
    (f : Frame) (hf : f.hdrOk = false)
    (halive : (run initClient ops).readerDone = false) :
    (step (run initClient ops) (Op.recv f)).shutdown = true ∧
    (step (run initClient ops) (Op.recv f)).readerDone = true ∧
    (step (run initClient ops) (Op.recv f)).dones
      = (run initClient ops).dones ++ (run initClient ops).pending.map
          (fun e => { cid := e.2, err := some CErr.connErr, reply := none }) ∧
    (step (step (run initClient ops) Op.close) (Op.recv f)).shutdown = true ∧
    (step (step (run initClient ops) Op.close) (Op.recv f)).readerDone = true ∧
    (step (step (run initClient ops) Op.close) (Op.recv f)).dones
      = (run initClient ops).dones ++ (run initClient ops).pending.map
          (fun e => { cid := e.2, err := some CErr.connErr, reply := none }) ∧
    (∀ cid, cid ∈ (run initClient ops).pending.map (fun e => e.2) →
      sigCount (run initClient ops) cid = 0 ∧
      sigCount (step (run initClient ops) (Op.recv f)) cid = 1 ∧
      sigCount (step (step (run initClient ops) Op.close) (Op.recv f)) cid = 1) := by
  have h1 : step (run initClient ops) (Op.recv f)
      = { terminateCalls (run initClient ops) CErr.connErr with readerDone := true } :=
    step_recvFail _ f hf halive
  have hclose : step (run initClient ops) Op.close
      = { run initClient ops with closed := true } := by
    simp only [step]
    exact close_fst _
  have hrd2 : (step (run initClient ops) Op.close).readerDone = false := by
    rw [hclose]
    exact halive
  have h2 : step (step (run initClient ops) Op.close) (Op.recv f)
      = { terminateCalls (step (run initClient ops) Op.close) CErr.connErr with
          readerDone := true } :=
    step_recvFail _ f hf hrd2
  refine ⟨by rw [h1]; try rfl, by rw [h1]; try rfl, by rw [h1]; try rfl,
    by rw [h2]; try rfl, by rw [h2]; try rfl, by rw [h2, hclose]; try rfl, ?_⟩
  intro cid hmem
  have hp := pend_pos_of_mem (run initClient ops) cid hmem
  have hreg : cid ∈ cidsOf ops := by
    by_contra hnc
    have := (run_stable ops initClient cid rfl hnc).2
    omega
  have hb := run_reg_balanced ops initClient cid wf_init ⟨rfl, rfl⟩ hnd hreg
  simp only [Balanced, halive, Bool.false_eq_true, if_false] at hb
  have hsig0 : sigCount (run initClient ops) cid = 0 := by omega
  have hpend1 : pendCount (run initClient ops) cid = 1 := by omega
  refine ⟨hsig0, ?_, ?_⟩
  · rw [h1]
    have e1 : sigCount { terminateCalls (run initClient ops) CErr.connErr with
        readerDone := true } cid
        = sigCount (terminateCalls (run initClient ops) CErr.connErr) cid := rfl
    rw [e1, terminate_sig]
    omega
  · rw [h2]
    have e1 : sigCount { terminateCalls (step (run initClient ops) Op.close) CErr.connErr with
        readerDone := true } cid
        = sigCount (terminateCalls (step (run initClient ops) Op.close) CErr.connErr) cid := rfl
    have e2 : sigCount (step (run initClient ops) Op.close) cid
        = sigCount (run initClient ops) cid := by rw [hclose]; rfl
    have e3 : pendCount (step (run initClient ops) Op.close) cid
        = pendCount (run initClient ops) cid := by rw [hclose]; rfl
    rw [e1, terminate_sig, e2, e3]
    omega

/- Concrete inputs used by the C3 witness. -/
def wOps3 : List Op := [Op.send 0 true]

def wFr3 : Frame := { hdrOk := false, seq := 0, herr := "", body := none }

theorem c3_witness :
    (cidsOf wOps3).Nodup ∧ wFr3.hdrOk = false ∧
    (run initClient wOps3).readerDone = false ∧
    ((step (run initClient wOps3) (Op.recv wFr3)).shutdown = true ∧
    (step (run initClient wOps3) (Op.recv wFr3)).readerDone = true ∧
    (step (run initClient wOps3) (Op.recv wFr3)).dones
      = (run initClient wOps3).dones ++ (run initClient wOps3).pending.map
          (fun e => { cid := e.2, err := some CErr.connErr, reply := none }) ∧
    (step (step (run initClient wOps3) Op.close) (Op.recv wFr3)).shutdown = true ∧
    (step (step (run initClient wOps3) Op.close) (Op.recv wFr3)).readerDone = true ∧
    (step (step (run initClient wOps3) Op.close) (Op.recv wFr3)).dones
      = (run initClient wOps3).dones ++ (run initClient wOps3).pending.map
          (fun e => { cid := e.2, err := some CErr.connErr, reply := none }) ∧
    (∀ cid, cid ∈ (run initClient wOps3).pending.map (fun e => e.2) →
      sigCount (run initClient wOps3) cid = 0 ∧
      sigCount (step (run initClient wOps3) (Op.recv wFr3)) cid = 1 ∧
      sigCount (step (step (run initClient wOps3) Op.close) (Op.recv wFr3)) cid = 1)) :=
  ⟨by decide, rfl, by decide,
   c3_terminal_state_flushes_pending wOps3 (by decide) wFr3 rfl (by decide)⟩

/-- Claim C4: on the send path, a failed registration completes the call
immediately with that error and writes nothing for it to the connection;
a failed write after successful registration removes the call from the
pending table and completes it with the write error, and no later
response carrying that seq (nor any later operation not re-sending the
same call) can ever complete it a second time. -/
theorem c4_send_failure_paths (ops : List Op) (cid : Nat) (hcid : cid ∉ cidsOf ops)
    (post : List Op) (hpost : cid ∉ cidsOf post) (w : Bool) :
    (((run initClient ops).closed || (run initClient ops).shutdown) = true →
      send (run initClient ops) cid w
        = { run initClient ops with
            dones := (run initClient ops).dones
              ++ [{ cid := cid, err := some CErr.shutdownErr, reply := none }] }) ∧
    (((run initClient ops).closed || (run initClient ops).shutdown) = false →
      send (run initClient ops) cid false
        = { run initClient ops with
            seq := (run initClient ops).seq + 1,
            writes := (run initClient ops).writes ++ [(run initClient ops).seq],
            dones := (run initClient ops).dones
              ++ [{ cid := cid, err := some CErr.writeErr, reply := none }] } ∧
      pendCount (send (run initClient ops) cid false) cid = 0 ∧
      sigCount (run (send (run initClient ops) cid false) post) cid = 1) := by
  have hfr := run_stable ops initClient cid rfl hcid
  constructor
  · intro hcs
    exact send_shutdown_eq _ cid w hcs
  · intro hcs
    have h2 : pendCount (send (run initClient ops) cid false) cid = 0 := by
      rw [send_fail_eq _ cid hcs]
      exact hfr.2
    refine ⟨send_fail_eq _ cid hcs, h2, ?_⟩
    have h1 : sigCount (send (run initClient ops) cid false) cid = 1 := by
      rw [send_fail_eq _ cid hcs]
      have h0 : List.countP (fun d => d.cid == cid) (run initClient ops).dones = 0 := hfr.1
      simp only [sigCount, List.countP_append, List.countP_cons, List.countP_nil,
        beq_self_eq_true, eq_self_iff_true, if_true]
      omega
    obtain ⟨h3, h4⟩ := run_stable post _ cid h2 hpost
    rw [h3, h1]

/- Concrete inputs used by the C4 witness: after the write failure a stray
response carrying the dead call's seq arrives. -/
def wPost4 : List Op := [Op.recv { hdrOk := true, seq := 1, herr := "", body := some 5 }]

theorem c4_witness :
    (0 : Nat) ∉ cidsOf [] ∧ (0 : Nat) ∉ cidsOf wPost4 ∧
    ((((run initClient []).closed || (run initClient []).shutdown) = true →
      send (run initClient []) 0 true
        = { run initClient [] with
            dones := (run initClient []).dones
              ++ [{ cid := 0, err := some CErr.shutdownErr, reply := none }] }) ∧
    (((run initClient []).closed || (run initClient []).shutdown) = false →
      send (run initClient []) 0 false
        = { run initClient [] with
            seq := (run initClient []).seq + 1,
            writes := (run initClient []).writes ++ [(run initClient []).seq],
            dones := (run initClient []).dones
              ++ [{ cid := 0, err := some CErr.writeErr, reply := none }] } ∧
      pendCount (send (run initClient []) 0 false) 0 = 0 ∧
      sigCount (run (send (run initClient []) 0 false) wPost4) 0 = 1)) :=
  ⟨by decide, by decide, c4_send_failure_paths [] 0 (by decide) wPost4 (by decide) true⟩

/-- Claim C5: the client's sequence counter starts at 1; a successful
registerCall assigns the current counter value to the call, inserts it
into the pending table under that key, and strictly increments the
counter; every pending key stays below the counter and the counter never
decreases afterwards, so assigned sequence numbers are strictly
increasing and never reused; and when the client is closed or shutdown,
registerCall fails with the shutdown error and changes neither the
pending table nor the counter. -/
theorem c5_seq_assignment (ops : List Op) (cid : Nat) (post : List Op) :
    initClient.seq = 1 ∧
    ((((run initClient ops).closed || (run initClient ops).shutdown) = false →
      registerCall (run initClient ops) cid
        = ({ run initClient ops with
             pending := ((run initClient ops).seq, cid) :: (run initClient ops).pending,
             seq := (run initClient ops).seq + 1 },
           Except.ok (run initClient ops).seq) ∧
      (∀ e ∈ (run initClient ops).pending, e.1 < (run initClient ops).seq) ∧
      (run initClient ops).seq + 1 ≤ (run (registerCall (run initClient ops) cid).1 post).seq)) ∧
    ((((run initClient ops).closed || (run initClient ops).shutdown) = true →
      registerCall (run initClient ops) cid = (run initClient ops, Except.error CErr.shutdownErr))) := by
  have hwf := wf_run ops initClient wf_init
  refine ⟨rfl, ?_, ?_⟩
  · intro hcs
    have heq : registerCall (run initClient ops) cid
        = ({ run initClient ops with
             pending := ((run initClient ops).seq, cid) :: (run initClient ops).pending,
             seq := (run initClient ops).seq + 1 },
           Except.ok (run initClient ops).seq) := by
      simp [registerCall, hcs]
    refine ⟨heq, hwf.keysLt, ?_⟩
    have hseq : (registerCall (run initClient ops) cid).1.seq
        = (run initClient ops).seq + 1 := by rw [heq]
    calc (run initClient ops).seq + 1 = (registerCall (run initClient ops) cid).1.seq :=
          hseq.symm
      _ ≤ (run (registerCall (run initClient ops) cid).1 post).seq := run_seq_le post _
  · intro hcs
    simp [registerCall, hcs]

theorem c5_witness :
    initClient.seq = 1 ∧
    ((((run initClient []).closed || (run initClient []).shutdown) = false →
      registerCall (run initClient []) 3
        = ({ run initClient [] with
             pending := ((run initClient []).seq, 3) :: (run initClient []).pending,
             seq := (run initClient []).seq + 1 },
           Except.ok (run initClient []).seq) ∧
      (∀ e ∈ (run initClient []).pending, e.1 < (run initClient []).seq) ∧
      (run initClient []).seq + 1 ≤ (run (registerCall (run initClient []) 3).1 []).seq)) ∧
    ((((run initClient []).closed || (run initClient []).shutdown) = true →
      registerCall (run initClient []) 3 = (run initClient [], Except.error CErr.shutdownErr))) :=
  c5_seq_assignment [] 3 []

theorem methodLookup_not_mem (ms : List GoMethod) (n : String)
    (h : ¬ n ∈ ms.map GoMethod.name) :
    methodLookup (registerMethods ms) n = none := by
  induction ms with
  | nil => rfl
  | cons m rest ih =>
    simp only [List.map_cons, List.mem_cons] at h
    push_neg at h
    obtain ⟨h1, h2⟩ := h
    have hb : (m.name == n) = false := by
      simp only [beq_eq_false_iff_ne, ne_eq]
      exact fun he => h1 he.symm
    simp only [registerMethods]
    split
    · simp only [methodLookup, hb, Bool.false_eq_true, if_false]
      exact ih h2
    · exact ih h2

/-- Claim C6: a method of the registered instance is entered into the
service's method map if and only if it has exactly three ins (receiver,
argument, reply), exactly one out of the error type, and both the
argument and reply types are exported or builtin; every non-conforming
method is silently skipped (just absent from the map, no error), so a
method whose argument or reply type is unexported is never exposed even
when its arity matches. -/
theorem c6_method_registered_iff_shape (ms : List GoMethod)
    (hn : (ms.map GoMethod.name).Nodup) (m : GoMethod) (hm : m ∈ ms) :
    methodLookup (registerMethods ms) m.name
      = if methodOk m then some (mkMethodType m) else none := by
  induction ms with
  | nil => simp at hm
  | cons m0 rest ih =>
    simp only [List.map_cons, List.nodup_cons] at hn
    obtain ⟨hn1, hn2⟩ := hn
    rcases List.mem_cons.mp hm with rfl | hm2
    · simp only [registerMethods]
      split
      case isTrue hok =>
        simp [methodLookup, hok]
      case isFalse hok =>
        rw [methodLookup_not_mem rest m.name hn1]
        try simp [hok]
    · have hmem : m.name ∈ rest.map GoMethod.name :=
        List.mem_map.mpr ⟨m, hm2, rfl⟩
      have hne : (m0.name == m.name) = false := by
        simp only [beq_eq_false_iff_ne, ne_eq]
        exact fun he => hn1 (he ▸ hmem)
      simp only [registerMethods]
      split
      · simp only [methodLookup, hne, Bool.false_eq_true, if_false]
        exact ih hn2 hm2
      · exact ih hn2 hm2

/- Concrete inputs used by the C6 witness: one conforming method and one
whose argument type is unexported despite matching arity. -/
def wGood : GoMethod :=
  { name := "Sum", numIn := 3, numOut := 1, outIsError := true,
    argType := { name := "Args", pkgPath := "main" },
    replyType := { name := "Reply", pkgPath := "main" } }

def wBad : GoMethod :=
  { name := "Inner", numIn := 3, numOut := 1, outIsError := true,
    argType := { name := "args", pkgPath := "main" },
    replyType := { name := "Reply", pkgPath := "main" } }

theorem c6_witness :
    ([wGood, wBad].map GoMethod.name).Nodup ∧ wBad ∈ [wGood, wBad] ∧
    methodLookup (registerMethods [wGood, wBad]) wBad.name
      = if methodOk wBad then some (mkMethodType wBad) else none :=
  ⟨by decide, by decide,
   c6_method_registered_iff_shape [wGood, wBad] (by decide) wBad (by decide)⟩

/-- Claim C7: registering a second service whose derived name equals an
already-registered service's name returns the "service already defined"
error and leaves the registry unchanged, so the first registration's
service descriptor (and hence its methods) remains the one found by
lookup. -/
theorem c7_duplicate_service_rejected (reg : List (String × GoService)) (s1 s2 : GoService)
    (h1 : serviceLookup reg s1.sname = some s1) (h2 : s2.sname = s1.sname) :
    Register reg s2 = (reg, some ("rpc: service already defined: " ++ s1.sname)) ∧
    (Register reg s2).1 = reg ∧
    serviceLookup (Register reg s2).1 s1.sname = some s1 := by
  have hl : serviceLookup reg s2.sname = some s1 := by rw [h2]; exact h1
  have hreg : Register reg s2 = (reg, some ("rpc: service already defined: " ++ s1.sname)) := by
    simp only [Register, h2, h1]
  exact ⟨hreg, by rw [hreg], by rw [hreg]; exact h1⟩

/- Concrete inputs used by the C7 witness. -/
def wSvc1 : GoService :=
  { sname := "Foo",
    method := [("M", { mname := "M", argType := { name := "Args", pkgPath := "" },
                       replyType := { name := "Reply", pkgPath := "" } })] }

def wSvc2 : GoService := { sname := "Foo", method := [] }

theorem c7_witness :
    serviceLookup [("Foo", wSvc1)] wSvc1.sname = some wSvc1 ∧ wSvc2.sname = wSvc1.sname ∧
    (Register [("Foo", wSvc1)] wSvc2
        = ([("Foo", wSvc1)], some ("rpc: service already defined: " ++ wSvc1.sname)) ∧
     (Register [("Foo", wSvc1)] wSvc2).1 = [("Foo", wSvc1)] ∧
     serviceLookup (Register [("Foo", wSvc1)] wSvc2).1 wSvc1.sname = some wSvc1) :=
  ⟨by decide, rfl,
   c7_duplicate_service_rejected [("Foo", wSvc1)] wSvc1 wSvc2 (by decide) rfl⟩

/-- Claim C8: on an accepted connection, if the decoded Option's magic
number differs from the fixed constant, or its codec type has no
registered constructor, the server rejects the handshake: it reads zero
codec frames and writes zero responses on the connection. -/
theorem c8_handshake_rejection (reg : List (String × GoService)) (o : OptionMsg)
    (reqs : List ReqEvent)
    (h : o.magicNumber ≠ MagicNumber ∨ NewCodeFuncMap.contains o.codecType = false) :
    ServeConn reg (some o) reqs = ([], 0) := by
  rcases h with h | h
  · have hb : (o.magicNumber == MagicNumber) = false := by simpa using h
    simp [ServeConn, hb]
  · by_cases hm : (o.magicNumber == MagicNumber) = true
    · simp only [ServeConn, hm, h, eq_self_iff_true, if_true, Bool.false_eq_true, if_false]
    · have hb : (o.magicNumber == MagicNumber) = false := by simpa using hm
      simp [ServeConn, hb]

theorem c8_witness :
    (({ magicNumber := MagicNumber, codecType := JsonType } : OptionMsg).magicNumber ≠ MagicNumber ∨
      NewCodeFuncMap.contains ({ magicNumber := MagicNumber, codecType := JsonType } : OptionMsg).codecType = false) ∧
    ServeConn [] (some { magicNumber := MagicNumber, codecType := JsonType })
      [{ hdrOk := true, serviceMethod := "Foo.M", seq := 1, bodyErr := none,
         callResult := Except.ok 0 }] = ([], 0) :=
  ⟨by decide,
   c8_handshake_rejection [] { magicNumber := MagicNumber, codecType := JsonType }
     [{ hdrOk := true, serviceMethod := "Foo.M", seq := 1, bodyErr := none,
        callResult := Except.ok 0 }] (by decide)⟩

/-- Claim C9: in the per-connection request loop, a header decode failure
stops the loop (no further frames are consumed and nothing more is
written); a service/method lookup failure or an argument-body decode
failure instead stamps the error into that request's header, sends
exactly one error response carrying the invalid sentinel body for that
request, and the loop continues with the remaining requests. -/
theorem c9_request_loop_error_handling (reg : List (String × GoService)) (e : ReqEvent)
    (rest : List ReqEvent) :
    (e.hdrOk = false → serveCodec reg (e :: rest) = ([], 1)) ∧
    (∀ msg, e.hdrOk = true → findService reg e.serviceMethod = Except.error msg →
      serveCodec reg (e :: rest)
        = ({ serviceMethod := e.serviceMethod, seq := e.seq, herr := msg,
             body := RespBody.invalid } :: (serveCodec reg rest).1,
           (serveCodec reg rest).2 + 1)) ∧
    (∀ sv msg, e.hdrOk = true → findService reg e.serviceMethod = Except.ok sv →
      e.bodyErr = some msg →
      serveCodec reg (e :: rest)
        = ({ serviceMethod := e.serviceMethod, seq := e.seq, herr := msg,
             body := RespBody.invalid } :: (serveCodec reg rest).1,
           (serveCodec reg rest).2 + 1)) := by
  refine ⟨?_, ?_, ?_⟩
  · intro hh
    simp [serveCodec, hh]
  · intro msg hh hfs
    simp [serveCodec, hh, hfs]
  · intro sv msg hh hfs hb
    simp [serveCodec, hh, hfs, hb]

/- Concrete inputs used by the C9 witness: a request naming an unknown
service, against a registry holding one service. -/
def wReg9 : List (String × GoService) := [("Foo", wSvc1)]

def wEv9 : ReqEvent :=
  { hdrOk := true, serviceMethod := "Bar.M", seq := 1, bodyErr := none,
    callResult := Except.ok 0 }

theorem c9_witness :
    (wEv9.hdrOk = false → serveCodec wReg9 (wEv9 :: []) = ([], 1)) ∧
    (∀ msg, wEv9.hdrOk = true → findService wReg9 wEv9.serviceMethod = Except.error msg →
      serveCodec wReg9 (wEv9 :: [])
        = ({ serviceMethod := wEv9.serviceMethod, seq := wEv9.seq, herr := msg,
             body := RespBody.invalid } :: (serveCodec wReg9 []).1,
           (serveCodec wReg9 []).2 + 1)) ∧
    (∀ sv msg, wEv9.hdrOk = true → findService wReg9 wEv9.serviceMethod = Except.ok sv →
      wEv9.bodyErr = some msg →
      serveCodec wReg9 (wEv9 :: [])
        = ({ serviceMethod := wEv9.serviceMethod, seq := wEv9.seq, herr := msg,
             body := RespBody.invalid } :: (serveCodec wReg9 []).1,
           (serveCodec wReg9 []).2 + 1)) :=
  c9_request_loop_error_handling wReg9 wEv9 []

/-- Claim C10 fails as stated: passing more than one Option does not
always return an error — when the first variadic entry is nil, the
`options[0] == nil` disjunct short-circuits before the length check, so
`parseOptions(nil, opt)` returns the default Option without error and
Dial proceeds to dial. -/
theorem c10_counterexample :
    parseOptions [none, some { magicNumber := 0, codecType := JsonType }]
      = Except.ok DefaultOption ∧
    (Dial [none, some { magicNumber := 0, codecType := JsonType }]).1 = true := by
  decide

/-- Claim C10 (amended): a single caller-supplied Option has its
MagicNumber overwritten with the default magic constant and an empty
CodecType replaced by the gob default; every successful parse yields the
default magic number, so a client built via Dial never presents a wrong
magic number; passing no Option or a nil first Option selects the
default Option; and passing more than one Option whose first entry is
non-nil returns an error without dialing. -/
theorem c10_parse_options_amended (opt : OptionMsg) (options : List (Option OptionMsg))
    (r : OptionMsg) :
    (parseOptions [] = Except.ok DefaultOption) ∧
    (parseOptions (none :: options) = Except.ok DefaultOption) ∧
    (parseOptions [some opt]
      = Except.ok { magicNumber := MagicNumber,
                    codecType := if opt.codecType == "" then GobType else opt.codecType }) ∧
    (options ≠ [] →
      parseOptions (some opt :: options) = Except.error "number of options is more than 1" ∧
      (Dial (some opt :: options)).1 = false) ∧
    (parseOptions options = Except.ok r → r.magicNumber = MagicNumber) := by
  refine ⟨rfl, rfl, rfl, ?_, ?_⟩
  · intro hne
    cases options with
    | nil => exact absurd rfl hne
    | cons o0 rest =>
      constructor
      · rfl
      · rfl
  · intro h
    cases options with
    | nil =>
      simp only [parseOptions] at h
      injection h with h
      subst h
      rfl
    | cons o0 rest =>
      cases o0 with
      | none =>
        simp only [parseOptions] at h
        injection h with h
        subst h
        rfl
      | some o =>
        cases hr : rest.length == 0
        · rw [parseOptions, if_neg (by simp [hr])] at h
          exact absurd h (by simp)
        · rw [parseOptions, if_pos (by simp_all)] at h
          injection h with h
          subst h
          rfl

theorem c10_witness :
    (parseOptions [] = Except.ok DefaultOption) ∧
    (parseOptions (none :: [some { magicNumber := 7, codecType := "x" }]) = Except.ok DefaultOption) ∧
    (parseOptions [some ({ magicNumber := 5, codecType := "" } : OptionMsg)]
      = Except.ok { magicNumber := MagicNumber,
                    codecType := if ({ magicNumber := 5, codecType := "" } : OptionMsg).codecType == ""
                                 then GobType
                                 else ({ magicNumber := 5, codecType := "" } : OptionMsg).codecType }) ∧
    ([some { magicNumber := 7, codecType := "x" }] ≠ ([] : List (Option OptionMsg)) →
      parseOptions (some ({ magicNumber := 5, codecType := "" } : OptionMsg)
          :: [some { magicNumber := 7, codecType := "x" }])
        = Except.error "number of options is more than 1" ∧
      (Dial (some ({ magicNumber := 5, codecType := "" } : OptionMsg)
          :: [some { magicNumber := 7, codecType := "x" }])).1 = false) ∧
    (parseOptions [some { magicNumber := 7, codecType := "x" }] = Except.ok DefaultOption →
      DefaultOption.magicNumber = MagicNumber) :=
  c10_parse_options_amended { magicNumber := 5, codecType := "" }
    [some { magicNumber := 7, codecType := "x" }] DefaultOption

end GoRpc
